import Mathlib

/-!
Verification of the qtree-pooled NAS storage driver (ONTAP NAS Economy).

Shallow embedding of `storage_drivers/ontap/ontap_nas_qtree.go`.  Go strings
that are manipulated byte-wise (qtree names) are modelled as `List Char`
(qtree names are ASCII, so Go's byte length coincides with the character
count); strings used only as opaque messages or keys are modelled as `String`.
Every appliance RPC returns `appliance result + transport error` in the
source; a call's combined outcome after `api.GetError` is modelled as
`Except String _`, supplied by an environment record so every execution path
of the driver code is a concrete evaluation of the model.
-/

namespace Ontap

/-- Source constant `maxQtreeNameLength = 64`. -/
def maxQtreeNameLength : Nat := 64

/-- Source constant `maxQtreesPerFlexvol = 200`. -/
def maxQtreesPerFlexvol : Nat := 200

/-- Source constant `deletedQtreeNamePrefix = "deleted_"`, as a byte list. -/
def deletedQtreeNamePrefix : List Char := "deleted_".toList

/-- Modelled from the spec: `utils.RandomString(n)` (the `utils` package is not
under `src/`) returns `n` random alphanumeric characters. -/
def randomStringSpec (s : List Char) (n : Nat) : Prop :=
  s.length = n ∧ ∀ c ∈ s, c.isAlpha ∨ c.isDigit

/-- Rename target computed by `Destroy` (source lines 404-409): the qtree is
renamed to `deleted_<name>_<suffix>`; if that exceeds 64 bytes, `name` is
first truncated from the left by `len("deleted_") + 10` bytes. -/
def deletedQtreeName (name suffix : List Char) : List Char :=
  let deletedName := deletedQtreeNamePrefix ++ name ++ ['_'] ++ suffix
  if deletedName.length > maxQtreeNameLength then
    let trimLength := deletedQtreeNamePrefix.length + 10
    deletedQtreeNamePrefix ++ name.drop trimLength ++ ['_'] ++ suffix
  else
    deletedName

/-- Qtree-count filter loop of `getFlexvolForQtree` (source lines 672-686):
for each candidate Flexvol query its qtree count, aborting on a count error,
and retain the candidate iff its count is below the fan-out cap. -/
def filterUnderLimit (qtreeCount : String → Except String Nat) :
    List String → Except String (List String)
  | [] => .ok []
  | v :: rest =>
    match qtreeCount v with
    | .error e => .error ("error enumerating qtrees: " ++ e)
    | .ok count =>
      match filterUnderLimit qtreeCount rest with
      | .error e => .error e
      | .ok tail => .ok (if count < maxQtreesPerFlexvol then v :: tail else tail)

/-- Pool selector `getFlexvolForQtree` (source lines 660-698).
`volsByAttrsRes` is the outcome of `VolumeListByAttrs`, `qtreeCount` the
outcome of `QtreeCount` per volume, and `pick` the random draw used when more
than one candidate remains (`rand.Intn` modelled as `pick % length`). -/
def getFlexvolForQtree (volsByAttrsRes : Except String (List String))
    (qtreeCount : String → Except String Nat) (pick : Nat) :
    Except String String :=
  match volsByAttrsRes with
  | .error e => .error ("error enumerating Flexvols: " ++ e)
  | .ok vols =>
    match filterUnderLimit qtreeCount vols with
    | .error e => .error e
    | .ok volumes =>
      match volumes with
      | [] => .ok ""
      | [v] => .ok v
      | v0 :: v1 :: restVols =>
        .ok ((v0 :: v1 :: restVols).get
          ⟨pick % (v0 :: v1 :: restVols).length, Nat.mod_lt _ (Nat.succ_pos _)⟩)

/-- Concrete qtree-count oracle used to witness `getFlexvolForQtree_spec`:
Flexvol `a` holds 7 qtrees, Flexvol `b` is at the 200-qtree cap. -/
def qtreeCountW : String → Except String Nat :=
  fun v => if v = "a" then .ok 7 else if v = "b" then .ok 200 else .error "no such volume"

/-- Modelled from the spec: the appliance RPC `QtreeList(namePrefix,
flexvolPrefix)` (client code not under src/) returns every qtree in the
managed Flexvols whose name begins with `namePrefix`. -/
def qtreeListRpc (storagePrefixName : List Char) (qtrees : List (List Char)) :
    List (List Char) :=
  qtrees.filter (fun q => storagePrefixName.isPrefixOf q)

/-- `List()` (source lines 503-531): enumerate the qtrees whose names begin
with the configured storage prefix, and return each qtree name with the prefix
stripped (`qtree.Qtree()[len(prefix):]`). -/
def ListVolumes (storagePrefixName : List Char) (qtrees : List (List Char)) :
    List (List Char) :=
  (qtreeListRpc storagePrefixName qtrees).map
    (fun q => q.drop storagePrefixName.length)

/-- Polling loop of `disableQuotas` (source lines 792-804): while the current
status is not `off`, sleep 1 s and read the status again; a read error or a
`corrupt` status fails the operation.  The successive `QuotaStatus` outcomes
are supplied as the list `obs` (one element per poll); `none` models the loop
still running after all supplied observations (the source loop has no
timeout). -/
def disableQuotasLoop (flexvol : String) :
    String → List (Except String String) → Option (Except String Unit)
  | status, obs =>
    if status = "off" then some (.ok ())
    else
      match obs with
      | [] => none
      | .error e :: _ => some (.error ("error disabling quotas: " ++ e))
      | .ok st :: rest =>
        if st = "corrupt" then
          some (.error ("error disabling quotas: quotas are corrupt on flexvol " ++ flexvol))
        else
          disableQuotasLoop flexvol st rest

/-- `disableQuotas` (source lines 775-807): read the quota status (first
element of `obs`); fail on a read error; fail if `corrupt`; issue `QuotaOff`
iff the status is not `off`; when `wait` is set, poll the remaining
observations until the status is `off` or `corrupt`.  Returns the outcome
(`none` = still polling) and the list of state-changing RPCs issued. -/
def disableQuotas (flexvol : String) (wait : Bool)
    (obs : List (Except String String)) (quotaOffRes : Except String Unit) :
    Option (Except String Unit) × List String :=
  match obs with
  | [] => (none, [])
  | .error e :: _ => (some (.error ("error disabling quotas: " ++ e)), [])
  | .ok status :: rest =>
    if status = "corrupt" then
      (some (.error ("error disabling quotas: quotas are corrupt on Flexvol " ++ flexvol)), [])
    else
      let rpcs := if status = "off" then [] else ["QuotaOff"]
      let offStep : Option (Except String Unit) :=
        if status = "off" then none
        else
          match quotaOffRes with
          | .error e => some (.error ("error disabling quotas: " ++ e))
          | .ok _ => none
      match offStep with
      | some r => (some r, rpcs)
      | none =>
        if wait then (disableQuotasLoop flexvol status rest, rpcs)
        else (some (.ok ()), rpcs)

/-- Polling loop of `enableQuotas` (source lines 827-839), driving to `on`. -/
def enableQuotasLoop (flexvol : String) :
    String → List (Except String String) → Option (Except String Unit)
  | status, obs =>
    if status = "on" then some (.ok ())
    else
      match obs with
      | [] => none
      | .error e :: _ => some (.error ("error enabling quotas: " ++ e))
      | .ok st :: rest =>
        if st = "corrupt" then
          some (.error ("error enabling quotas: quotas are corrupt on flexvol " ++ flexvol))
        else
          enableQuotasLoop flexvol st rest

/-- `enableQuotas` (source lines 810-842): read the quota status; fail on a
read error; fail if `corrupt`; issue `QuotaOn` iff the status equals `off`
(source line 820: `if status == "off"`); when `wait` is set, poll until the
status is `on` or `corrupt`. -/
def enableQuotas (flexvol : String) (wait : Bool)
    (obs : List (Except String String)) (quotaOnRes : Except String Unit) :
    Option (Except String Unit) × List String :=
  match obs with
  | [] => (none, [])
  | .error e :: _ => (some (.error ("error enabling quotas: " ++ e)), [])
  | .ok status :: rest =>
    if status = "corrupt" then
      (some (.error ("error enabling quotas: quotas are corrupt on flexvol " ++ flexvol)), [])
    else
      let rpcs := if status = "off" then ["QuotaOn"] else []
      let onStep : Option (Except String Unit) :=
        if status = "off" then
          match quotaOnRes with
          | .error e => some (.error ("error enabling quotas: " ++ e))
          | .ok _ => none
        else none
      match onStep with
      | some r => (some r, rpcs)
      | none =>
        if wait then (enableQuotasLoop flexvol status rest, rpcs)
        else (some (.ok ()), rpcs)

/-- Outcome of one `QuotaResize` RPC as the sweep sees it: a transport error
(`err != nil`), an appliance error with a ZAPI code (`!zerr.IsPassed()`), or
success. -/
inductive ResizeOutcome
  | transportError (msg : String)
  | zapiError (code : Nat)
  | passed
  deriving DecidableEq

/-- Modelled from the spec: `azgo.EVOLUMEDOESNOTEXIST` (the azgo package is
not under src/), the distinguishable "volume does not exist" appliance error
code; only its distinctness from other codes matters. -/
def EVOLUMEDOESNOTEXIST : Nat := 13040

/-- `resizeQuotas` (source lines 866-901): for every Flexvol flagged in
`quotaResizeMap`, issue `QuotaResize`; delete the entry on success, or when
the appliance reports `EVOLUMEDOESNOTEXIST`; keep it on any other error.
Returns the new map contents and the Flexvols for which a `QuotaResize` RPC
was issued.  The function surfaces no error (its Go counterpart returns
nothing; failures are only logged). -/
def resizeQuotas (outcome : String → ResizeOutcome) :
    List (String × Bool) → List (String × Bool) × List String
  | [] => ([], [])
  | (flexvol, resize) :: rest =>
    let (keptRest, rpcs) := resizeQuotas outcome rest
    if resize then
      match outcome flexvol with
      | .transportError _ => ((flexvol, resize) :: keptRest, flexvol :: rpcs)
      | .zapiError code =>
        if code = EVOLUMEDOESNOTEXIST then (keptRest, flexvol :: rpcs)
        else ((flexvol, resize) :: keptRest, flexvol :: rpcs)
      | .passed => (keptRest, flexvol :: rpcs)
    else
      ((flexvol, resize) :: keptRest, rpcs)

/-- Constant outcome oracle used to witness `resizeQuotas_spec`. -/
def resizePassedW : String → ResizeOutcome := fun _ => .passed

/-- `Detach` (source lines 461-483): the `QtreeExists` outcome is only logged
(a transport error and a missing qtree each produce a warning; on a transport
error Go's zero value makes `exists` false, so both warnings fire); the
returned result is exactly the outcome of the `UnmountVolume` collaborator.
Returns (log lines, result). -/
def Detach (qtreeExistsRes : Except String (Bool × String))
    (unmountRes : Except String Unit) : List String × Except String Unit :=
  let (found, logs1) :=
    match qtreeExistsRes with
    | .error e => (false, ["Error checking for existing qtree. " ++ e])
    | .ok (found, _) => (found, [])
  let logs2 := if found then [] else ["Qtree not found, attempting unmount anyway."]
  (logs1 ++ logs2, unmountRes)

/-- Decimal digit accumulator for `goParseInt64`: `none` on an empty digit
string or on any non-digit character. -/
def decDigits (ds : List Char) : Option Nat :=
  if ds.isEmpty then none
  else
    ds.foldl (fun acc c =>
      match acc with
      | none => none
      | some n => if c.isDigit then some (n * 10 + (c.toNat - '0'.toNat)) else none)
      (some 0)

/-- Go `strconv.ParseInt(s, 10, 64)`: an optional sign followed by one or
more decimal digits; the value must fit in a signed 64-bit integer (Go
reports ErrRange, a non-nil error, otherwise).  `none` models a non-nil
error. -/
def goParseInt64 (s : String) : Option Int :=
  match s.toList with
  | '+' :: ds =>
    match decDigits ds with
    | none => none
    | some n => if n ≤ 2 ^ 63 - 1 then some (n : Int) else none
  | '-' :: ds =>
    match decDigits ds with
    | none => none
    | some n => if n ≤ 2 ^ 63 then some (-(n : Int)) else none
  | ds =>
    match decDigits ds with
    | none => none
    | some n => if n ≤ 2 ^ 63 - 1 then some (n : Int) else none

/-- Wrap-around of Go's signed 64-bit arithmetic: Go defines signed integer
overflow to wrap modulo 2^64, so `size *= 1024` computes this. -/
def int64Wrap (x : Int) : Int := (x + 2 ^ 63) % 2 ^ 64 - 2 ^ 63

/-- Fields of the external volume representation built by `getVolumeExternal`
(source lines 1208-1246) that the claims concern. -/
structure VolumeConfigModel where
  name : String
  internalName : String
  size : String
  deriving DecidableEq

/-- `getVolumeExternal` (source lines 1208-1246): `InternalName` is the qtree
name, `Name` strips the storage prefix, and `Size` is the quota entry's disk
limit parsed by `strconv.ParseInt(_, 10, 64)` — 0 when the parse fails,
otherwise `size *= 1024` (KB to bytes, with Go's wrapping int64 multiply) —
formatted back to decimal by `strconv.FormatInt`. -/
def getVolumeExternal (storagePrefixStr qtreeName diskLimit : String) :
    VolumeConfigModel :=
  let internalName := qtreeName
  let name := internalName.drop storagePrefixStr.length
  let size : Int :=
    match goParseInt64 diskLimit with
    | none => 0
    | some n => int64Wrap (n * 1024)
  { name := name, internalName := internalName, size := toString size }

/-- State-changing appliance RPCs recorded by the provisioning models. -/
inductive Rpc
  | setVolumeSize (volume size : String)
  | qtreeCreate (qtree volume : String)
  | quotaSetEntry (qtarget volume target qtreeType diskLimit : String)
  deriving DecidableEq

/-- Modelled from the spec: `utils.GetV(opts, key, fallback)` (the `utils`
package is not under src/) resolves an option with a default fallback
value. -/
def GetV (opts : List (String × String)) (key fallback : String) : String :=
  match opts.lookup key with
  | some v => v
  | none => fallback

/-- Go `strconv.ParseBool`: accepts exactly 1, t, T, TRUE, true, True, 0, f,
F, FALSE, false, False. -/
def parseBool (s : String) : Option Bool :=
  if s = "1" ∨ s = "t" ∨ s = "T" ∨ s = "TRUE" ∨ s = "true" ∨ s = "True" then some true
  else if s = "0" ∨ s = "f" ∨ s = "F" ∨ s = "FALSE" ∨ s = "false" ∨ s = "False" then some false
  else none

/-- Driver configuration fields consumed by `Create`. -/
structure OntapConfig where
  aggregate : String
  spaceReserve : String
  snapshotPolicy : String
  snapshotDir : String
  encryption : String
  unixPermissions : String
  exportPolicy : String
  securityStyle : String

/-- Appliance outcomes consumed by `getFlexvolForQtree`. -/
structure PoolSelectorEnv where
  volsByAttrsRes : Except String (List String)
  qtreeCount : String → Except String Nat
  pick : Nat

/-- Appliance outcomes consumed by `createFlexvolForQtree` and its quota
bootstrap. -/
structure FlexvolFactoryEnv where
  randomSuffix : String
  volumeCreateRes : Except String Unit
  snapDirRes : Except String Unit
  volumeMountRes : Except String Unit
  quotaSetEntryDefaultRes : Except String Unit
  disableObs : List (Except String String)
  quotaOffRes : Except String Unit
  enableObs : List (Except String String)
  quotaOnRes : Except String Unit

/-- `addQuotaForQtree` (source lines 758-772): submit a tree quota entry with
target `/vol/<flexvol>/<qtree>` and disk limit `sizeBytes/1024` KB via
`QuotaSetEntry`; on success flag the Flexvol in `quotaResizeMap`.  Returns
(result, new map contents, RPCs submitted). -/
def addQuotaForQtree (qtree flexvol : String) (sizeBytes : Nat)
    (quotaSetEntryRes : Except String Unit) (quotaResizeMap : List String) :
    Except String Unit × List String × List Rpc :=
  let target := "/vol/" ++ flexvol ++ "/" ++ qtree
  let sizeKB := toString (sizeBytes / 1024)
  let rpcs := [Rpc.quotaSetEntry "" flexvol target "tree" sizeKB]
  match quotaSetEntryRes with
  | .error e => (.error ("error adding qtree quota: " ++ e), quotaResizeMap, rpcs)
  | .ok _ => (.ok (), flexvol :: quotaResizeMap, rpcs)

/-- `addDefaultQuotaForFlexvol` (source lines 737-755): submit the default
tree quota entry, then cycle quotas off and on.  The source discards the
results of `disableQuotas` and `enableQuotas` and re-tests the stale `err`
left nil by the `QuotaSetEntry` step (`d.disableQuotas(flexvol, true)` with
no assignment, lines 744-752), so neither check can fire; the model keeps
those calls and faithfully drops their results. -/
def addDefaultQuotaForFlexvol (flexvol : String) (env : FlexvolFactoryEnv) :
    Except String Unit :=
  match env.quotaSetEntryDefaultRes with
  | .error e => .error ("error adding default quota: " ++ e)
  | .ok _ =>
    let _ := disableQuotas flexvol true env.disableObs env.quotaOffRes
    let _ := enableQuotas flexvol true env.enableObs env.quotaOnRes
    .ok ()

/-- `createFlexvolForQtree` (source lines 590-653): create the Flexvol named
`<flexvolNamePrefix><10 random alphanumerics>`, optionally disable the
`.snapshot` directory, mount it, refresh load-sharing mirrors, and install
the default quota; each failure destroys the partial Flexvol (a best-effort
deferred call, not modelled as it changes no driver state) and surfaces a
wrapped error. -/
def createFlexvolForQtree (flexvolPrefixName : String) (enableSnapshotDir : Bool)
    (env : FlexvolFactoryEnv) : Except String String :=
  let flexvol := flexvolPrefixName ++ env.randomSuffix
  match env.volumeCreateRes with
  | .error e => .error ("error creating Flexvol: " ++ e)
  | .ok _ =>
    let snapStep : Except String Unit :=
      if enableSnapshotDir then .ok ()
      else
        match env.snapDirRes with
        | .error e => .error ("error disabling snapshot directory access: " ++ e)
        | .ok _ => .ok ()
    match snapStep with
    | .error e => .error e
    | .ok _ =>
      match env.volumeMountRes with
      | .error e => .error ("error mounting Flexvol: " ++ e)
      | .ok _ =>
        match addDefaultQuotaForFlexvol flexvol env with
        | .error e => .error ("error adding default quota to Flexvol: " ++ e)
        | .ok _ => .ok flexvol

/-- `ensureFlexvolForQtree` (source lines 562-584): use an existing suitable
Flexvol when the selector finds one, otherwise create one. -/
def ensureFlexvolForQtree (selector : PoolSelectorEnv)
    (flexvolPrefixName : String) (enableSnapshotDir : Bool)
    (factory : FlexvolFactoryEnv) : Except String String :=
  match getFlexvolForQtree selector.volsByAttrsRes selector.qtreeCount selector.pick with
  | .error e => .error ("error finding Flexvol for qtree: " ++ e)
  | .ok flexvol =>
    if flexvol ≠ "" then .ok flexvol
    else
      match createFlexvolForQtree flexvolPrefixName enableSnapshotDir factory with
      | .error e => .error ("error creating Flexvol for qtree: " ++ e)
      | .ok created => .ok created

/-- Appliance outcomes consumed by `Create`. -/
structure CreateEnv where
  qtreeExistsRes : Except String (Bool × String)
  validateEncryptionRes : Except String (Option Bool)
  selector : PoolSelectorEnv
  factory : FlexvolFactoryEnv
  optimalSizeRes : Except String Nat
  setVolumeSizeRes : Except String Unit
  qtreeCreateRes : Except String Unit
  quotaSetEntryQtreeRes : Except String Unit

/-- `Create` (source lines 240-351).  Returns (result, new `quotaResizeMap`
contents, RPCs issued).  The final quota step reproduces the source exactly:
`d.addQuotaForQtree(name, flexvol, sizeBytes)` discards its error and the
following `if err != nil` re-tests the stale `err` from the qtree-creation
step, which is nil on this path (lines 343-348), so `Create` returns nil. -/
def Create (name : String) (sizeBytes : Nat) (opts : List (String × String))
    (config : OntapConfig) (flexvolPrefixName : String)
    (minimumVolumeSizeBytes : Nat) (env : CreateEnv)
    (quotaResizeMap : List String) :
    Except String Unit × List String × List Rpc :=
  let createError : Except String Unit := .error "volume creation failed"
  match env.qtreeExistsRes with
  | .error _ => (createError, quotaResizeMap, [])
  | .ok (found, _) =>
    if found then
      (.error ("volume " ++ name ++ " already exists"), quotaResizeMap, [])
    else if sizeBytes < minimumVolumeSizeBytes then
      (.error ("requested volume size (" ++ toString sizeBytes ++
        " bytes) is too small; the minimum volume size is " ++
        toString minimumVolumeSizeBytes ++ " bytes"), quotaResizeMap, [])
    else if name.length > maxQtreeNameLength then
      (.error ("volume " ++ name ++ " name exceeds the limit of " ++
        toString maxQtreeNameLength ++ " characters"), quotaResizeMap, [])
    else
      let size := toString sizeBytes
      let snapshotDir := GetV opts "snapshotDir" config.snapshotDir
      match parseBool snapshotDir with
      | none => (.error "invalid boolean value for snapshotDir", quotaResizeMap, [])
      | some enableSnapshotDir =>
        match env.validateEncryptionRes with
        | .error e => (.error e, quotaResizeMap, [])
        | .ok _encrypt =>
          match ensureFlexvolForQtree env.selector flexvolPrefixName
              enableSnapshotDir env.factory with
          | .error _ => (createError, quotaResizeMap, [])
          | .ok flexvol =>
            let resizeRpc :=
              match env.optimalSizeRes with
              | .error _ => Rpc.setVolumeSize flexvol ("+" ++ size)
              | .ok flexvolSizeBytes => Rpc.setVolumeSize flexvol (toString flexvolSizeBytes)
            match env.setVolumeSizeRes with
            | .error _ => (createError, quotaResizeMap, [resizeRpc])
            | .ok _ =>
              match env.qtreeCreateRes with
              | .error _ =>
                (createError, quotaResizeMap, [resizeRpc, Rpc.qtreeCreate name flexvol])
              | .ok _ =>
                let (_discarded, newMap, quotaRpcs) :=
                  addQuotaForQtree name flexvol sizeBytes
                    env.quotaSetEntryQtreeRes quotaResizeMap
                (.ok (), newMap, [resizeRpc, Rpc.qtreeCreate name flexvol] ++ quotaRpcs)

/-- Configuration used by the concrete evaluations below. -/
def cfgW : OntapConfig :=
  { aggregate := "aggr1", spaceReserve := "none", snapshotPolicy := "none",
    snapshotDir := "false", encryption := "false",
    unixPermissions := "---rwxr-xr-x", exportPolicy := "default",
    securityStyle := "unix" }

/-- Factory environment in which every bootstrap step succeeds. -/
def factoryOkW : FlexvolFactoryEnv :=
  { randomSuffix := "abcdefghij", volumeCreateRes := .ok (),
    snapDirRes := .ok (), volumeMountRes := .ok (),
    quotaSetEntryDefaultRes := .ok (), disableObs := [.ok "off"],
    quotaOffRes := .ok (), enableObs := [.ok "on"], quotaOnRes := .ok () }

/-- Create environment for the C1 evaluation: pool has Flexvol `fv1` with 3
qtrees; every appliance call succeeds except the per-qtree `QuotaSetEntry`
RPC. -/
def envC1 : CreateEnv :=
  { qtreeExistsRes := .ok (false, ""),
    validateEncryptionRes := .ok none,
    selector := { volsByAttrsRes := .ok ["fv1"],
                  qtreeCount := fun v => if v = "fv1" then .ok 3 else .error "unknown volume",
                  pick := 0 },
    factory := factoryOkW,
    optimalSizeRes := .ok 2147483648,
    setVolumeSizeRes := .ok (),
    qtreeCreateRes := .ok (),
    quotaSetEntryQtreeRes := .error "ZAPI call failed" }

/-- Create environment for the C2 evaluation: pool has Flexvol `fv2` with 17
qtrees; the per-qtree quota installation fails after the qtree was created. -/
def envC2 : CreateEnv :=
  { qtreeExistsRes := .ok (false, ""),
    validateEncryptionRes := .ok none,
    selector := { volsByAttrsRes := .ok ["fv2"],
                  qtreeCount := fun v => if v = "fv2" then .ok 17 else .error "unknown volume",
                  pick := 0 },
    factory := factoryOkW,
    optimalSizeRes := .error "no optimal size",
    setVolumeSizeRes := .ok (),
    qtreeCreateRes := .ok (),
    quotaSetEntryQtreeRes := .error "quota setup failed" }

/-- Factory environment for the C3 evaluation: the default quota entry is
accepted but the very first quota status read during the disable-then-enable
cycle reports `corrupt`. -/
def envC3 : FlexvolFactoryEnv :=
  { randomSuffix := "abcde12345", volumeCreateRes := .ok (),
    snapDirRes := .ok (), volumeMountRes := .ok (),
    quotaSetEntryDefaultRes := .ok (), disableObs := [.ok "corrupt"],
    quotaOffRes := .ok (), enableObs := [.ok "on"], quotaOnRes := .ok () }

theorem filterUnderLimit_mem (qtreeCount : String → Except String Nat)
    (vols kept : List String) (v : String)
    (hres : filterUnderLimit qtreeCount vols = .ok kept) (hv : v ∈ kept) :
    ∃ c, qtreeCount v = .ok c ∧ c < maxQtreesPerFlexvol := by
  induction vols generalizing kept with
  | nil =>
    simp only [filterUnderLimit] at hres
    cases hres
    cases hv
  | cons w rest ih =>
    simp only [filterUnderLimit] at hres
    cases hw : qtreeCount w with
    | error e => rw [hw] at hres; cases hres
    | ok c =>
      rw [hw] at hres
      cases htail : filterUnderLimit qtreeCount rest with
      | error e => rw [htail] at hres; cases hres
      | ok tail =>
        rw [htail] at hres
        cases hres
        by_cases hc : c < maxQtreesPerFlexvol
        · rw [if_pos hc] at hv
          cases hv with
          | head => exact ⟨c, hw, hc⟩
          | tail b hv2 => exact ih tail htail hv2
        · rw [if_neg hc] at hv
          exact ih tail htail hv

/-- C4: `getFlexvolForQtree` never returns a Flexvol whose qtree count is 200
or more; when no matching Flexvol under the cap exists it returns the empty
string together with a nil error; and when exactly one candidate remains it
returns that Flexvol. -/
theorem getFlexvolForQtree_spec (vols : List String)
    (qtreeCount : String → Except String Nat) (pick : Nat) (v : String) :
    (getFlexvolForQtree (.ok vols) qtreeCount pick = .ok v → v ≠ "" →
      ∃ c, qtreeCount v = .ok c ∧ c < maxQtreesPerFlexvol) ∧
    (filterUnderLimit qtreeCount vols = .ok [] →
      getFlexvolForQtree (.ok vols) qtreeCount pick = .ok "") ∧
    (∀ w, filterUnderLimit qtreeCount vols = .ok [w] →
      getFlexvolForQtree (.ok vols) qtreeCount pick = .ok w) := by
  refine ⟨?_, ?_, ?_⟩
  · intro hres hv
    simp only [getFlexvolForQtree] at hres
    cases hk : filterUnderLimit qtreeCount vols with
    | error e => rw [hk] at hres; cases hres
    | ok kept =>
      rw [hk] at hres
      cases kept with
      | nil =>
        simp only [Except.ok.injEq] at hres
        exact absurd hres.symm hv
      | cons w tail =>
        cases tail with
        | nil =>
          simp only [Except.ok.injEq] at hres
          subst hres
          exact filterUnderLimit_mem qtreeCount vols _ _ hk (List.Mem.head _)
        | cons w1 tail1 =>
          simp only [Except.ok.injEq] at hres
          subst hres
          exact filterUnderLimit_mem qtreeCount vols _ _ hk (List.get_mem _ _ _)
  · intro hk
    simp only [getFlexvolForQtree, hk]
  · intro w hk
    simp only [getFlexvolForQtree, hk]

theorem getFlexvolForQtree_spec_witness :
    (∃ c, qtreeCountW "a" = .ok c ∧ c < maxQtreesPerFlexvol) ∧
    getFlexvolForQtree (.ok ["b"]) qtreeCountW 0 = .ok "" ∧
    getFlexvolForQtree (.ok ["a", "b"]) qtreeCountW 0 = .ok "a" := by
  refine ⟨(getFlexvolForQtree_spec ["a", "b"] qtreeCountW 0 "a").1 rfl (by decide),
    (getFlexvolForQtree_spec ["b"] qtreeCountW 0 "").2.1 rfl,
    (getFlexvolForQtree_spec ["a", "b"] qtreeCountW 0 "a").2.2 "a" rfl⟩

/-- C5: for every `Destroy(name)` with `len(name) ≤ 64` that reaches the
rename step, the rename target begins with `deleted_`, ends with `_` followed
by the 5 random alphanumerics, and is at most 64 bytes long; whenever the
un-truncated form `deleted_<name>_<suffix>` would exceed 64 bytes, `name` is
truncated from the left by `len("deleted_") + 10 = 18` bytes first. -/
theorem deletedQtreeName_spec (name suffix : List Char)
    (hn : name.length ≤ 64) (hs : randomStringSpec suffix 5) :
    deletedQtreeNamePrefix <+: deletedQtreeName name suffix ∧
    ('_' :: suffix) <:+ deletedQtreeName name suffix ∧
    (deletedQtreeName name suffix).length ≤ 64 ∧
    ((deletedQtreeNamePrefix ++ name ++ ['_'] ++ suffix).length > 64 →
      deletedQtreeName name suffix =
        deletedQtreeNamePrefix ++ name.drop 18 ++ ['_'] ++ suffix) := by
  have hpre : deletedQtreeNamePrefix.length = 8 := by decide
  obtain ⟨hs5, _⟩ := hs
  by_cases h : (deletedQtreeNamePrefix ++ name ++ ['_'] ++ suffix).length > maxQtreeNameLength
  · have hd : deletedQtreeName name suffix =
        deletedQtreeNamePrefix ++ name.drop 18 ++ ['_'] ++ suffix := by
      simp only [deletedQtreeName, hpre]
      rw [if_pos h]
    refine ⟨?_, ?_, ?_, fun _ => hd⟩
    · exact hd ▸ ⟨name.drop 18 ++ ['_'] ++ suffix, by simp⟩
    · exact hd ▸ ⟨deletedQtreeNamePrefix ++ name.drop 18, by simp⟩
    · rw [hd]
      simp only [List.length_append, List.length_drop, hpre, hs5,
        List.length_singleton]
      omega
  · have hd : deletedQtreeName name suffix =
        deletedQtreeNamePrefix ++ name ++ ['_'] ++ suffix := by
      simp only [deletedQtreeName]
      rw [if_neg h]
    refine ⟨?_, ?_, ?_, ?_⟩
    · exact hd ▸ ⟨name ++ ['_'] ++ suffix, by simp⟩
    · exact hd ▸ ⟨deletedQtreeNamePrefix ++ name, by simp⟩
    · rw [hd]
      simp only [maxQtreeNameLength] at h
      omega
    · intro hlong
      exact absurd hlong (by simpa [maxQtreeNameLength] using h)

theorem deletedQtreeName_spec_witness :
    (List.replicate 60 'q').length ≤ 64 ∧
    randomStringSpec ("ab12c".toList) 5 ∧
    (deletedQtreeName (List.replicate 60 'q') ("ab12c".toList)).length ≤ 64 := by
  have h := deletedQtreeName_spec (List.replicate 60 'q') ("ab12c".toList)
    (by decide) ⟨by decide, by decide⟩
  exact ⟨by decide, ⟨by decide, by decide⟩, h.2.2.1⟩

/-- C6 counterexample: with the configured storage prefix `""`, a qtree that
has been renamed for deletion (here `deleted_vol1_ab1cd`) does appear in the
result of `List()`, and the returned name begins with `deleted_`; so the
claimed invisibility does not hold for every value of the storage prefix. -/
theorem listVolumes_shows_deleted_qtree :
    deletedQtreeName ("vol1".toList) ("ab1cd".toList) ∈
      ListVolumes [] [deletedQtreeName ("vol1".toList) ("ab1cd".toList)] ∧
    deletedQtreeNamePrefix <+: deletedQtreeName ("vol1".toList) ("ab1cd".toList) := by
  decide

/-- C6 (amended): every name returned by `List()` is an enumerated qtree's
name with the storage prefix stripped; and provided the storage prefix and
`deleted_` are prefix-incomparable (neither is a prefix of the other — true
for any prefix not starting with `d`), no qtree whose name begins with
`deleted_` (in particular one renamed for deletion) is ever enumerated, and,
when every managed qtree is either a live prefix-named qtree or one renamed
for deletion, no returned name begins with `deleted_`. -/
theorem listVolumes_amended (storagePrefixName : List Char)
    (qtrees : List (List Char))
    (h1 : ¬ storagePrefixName <+: deletedQtreeNamePrefix)
    (h2 : ¬ deletedQtreeNamePrefix <+: storagePrefixName)
    (hq : ∀ q ∈ qtrees,
      (∃ u, q = storagePrefixName ++ u ∧ ¬ deletedQtreeNamePrefix <+: u) ∨
      deletedQtreeNamePrefix <+: q) :
    (∀ q, deletedQtreeNamePrefix <+: q → q ∉ qtreeListRpc storagePrefixName qtrees) ∧
    (∀ v ∈ ListVolumes storagePrefixName qtrees, ¬ deletedQtreeNamePrefix <+: v) ∧
    (∀ v ∈ ListVolumes storagePrefixName qtrees,
      ∃ q ∈ qtrees, storagePrefixName <+: q ∧ v = q.drop storagePrefixName.length) := by
  have notEnum : ∀ q, deletedQtreeNamePrefix <+: q →
      q ∉ qtreeListRpc storagePrefixName qtrees := by
    intro q hdel hmem
    rw [qtreeListRpc, List.mem_filter] at hmem
    have hP : storagePrefixName <+: q := List.isPrefixOf_iff_prefix.mp hmem.2
    rcases List.prefix_or_prefix_of_prefix hP hdel with h | h
    · exact h1 h
    · exact h2 h
  refine ⟨notEnum, ?_, ?_⟩
  · intro v hv
    rw [ListVolumes, List.mem_map] at hv
    obtain ⟨q, hqmem, hdrop⟩ := hv
    have hqmem' := hqmem
    rw [qtreeListRpc, List.mem_filter] at hqmem'
    rcases hq q hqmem'.1 with ⟨u, hqu, hu⟩ | hdel
    · subst hqu
      rw [List.drop_left] at hdrop
      rw [← hdrop]
      exact hu
    · exact absurd hqmem (notEnum q hdel)
  · intro v hv
    rw [ListVolumes, List.mem_map] at hv
    obtain ⟨q, hqmem, hdrop⟩ := hv
    rw [qtreeListRpc, List.mem_filter] at hqmem
    exact ⟨q, hqmem.1, List.isPrefixOf_iff_prefix.mp hqmem.2, hdrop.symm⟩

theorem listVolumes_amended_witness :
    (∀ q, deletedQtreeNamePrefix <+: q →
      q ∉ qtreeListRpc ("tri_".toList) [("tri_a".toList)]) ∧
    (∀ v ∈ ListVolumes ("tri_".toList) [("tri_a".toList)],
      ¬ deletedQtreeNamePrefix <+: v) := by
  have h := listVolumes_amended ("tri_".toList) [("tri_a".toList)]
    (by decide) (by decide)
    (by
      intro q hq
      rw [List.mem_singleton] at hq
      subst hq
      exact Or.inl ⟨"a".toList, by decide, by decide⟩)
  exact ⟨h.1, h.2.1⟩

/-- C1 (code observation): a `Create` in which every step succeeds except the
per-qtree `QuotaSetEntry` RPC still returns success; the tree quota entry with
target `/vol/fv1/vol1` and disk limit `1073741824/1024 = 1048576` KB was
submitted, but the Flexvol was NOT inserted into the quota resize map (the
returned map is empty), because `Create` discards `addQuotaForQtree`'s error
(source lines 343-348).  This refutes the claim that every successful
`Create` has inserted the containing Flexvol into `quotaResizeMap`. -/
theorem create_succeeds_without_resize_flag :
    Create "vol1" 1073741824 [] cfgW "p_" 20971520 envC1 [] =
      (.ok (), [],
        [Rpc.setVolumeSize "fv1" "2147483648", Rpc.qtreeCreate "vol1" "fv1",
         Rpc.quotaSetEntry "" "fv1" "/vol/fv1/vol1" "tree" "1048576"]) ∧
    (addQuotaForQtree "vol1" "fv1" 1073741824 (.error "ZAPI call failed") []).1 =
      .error "error adding qtree quota: ZAPI call failed" :=
  ⟨rfl, rfl⟩

/-- C2 (code observation): when the per-qtree quota installation fails after
the qtree has been created, `Create` still returns nil rather than the
generic "volume creation failed" error, because the error returned by
`addQuotaForQtree` is discarded and the following `if err != nil` re-tests
the stale, nil `err` of the qtree-creation step (source lines 343-348). -/
theorem create_not_gated_by_quota_failure :
    (Create "vol2" 2147483648 [] cfgW "p_" 20971520 envC2 []).1 = .ok () ∧
    (Create "vol2" 2147483648 [] cfgW "p_" 20971520 envC2 []).1 ≠
      .error "volume creation failed" ∧
    (addQuotaForQtree "vol2" "fv2" 2147483648 (.error "quota setup failed") []).1 =
      .error "error adding qtree quota: quota setup failed" := by
  refine ⟨rfl, ?_, rfl⟩
  intro h
  rw [show (Create "vol2" 2147483648 [] cfgW "p_" 20971520 envC2 []).1 =
    Except.ok () from rfl] at h
  exact Except.noConfusion h

/-- C3 (code observation): when the first quota status read during the
default-quota disable-then-enable cycle reports `corrupt`, `disableQuotas`
does fail with an error naming the Flexvol, but `addDefaultQuotaForFlexvol`
discards that error (stale-err check, source lines 744-752) and returns nil,
so `createFlexvolForQtree` succeeds — the Flexvol creation operation does not
fail as the claim requires. -/
theorem createFlexvol_ignores_corrupt_quota_status :
    disableQuotas "p_abcde12345" true [.ok "corrupt"] (.ok ()) =
      (some (.error "error disabling quotas: quotas are corrupt on Flexvol p_abcde12345"), []) ∧
    addDefaultQuotaForFlexvol "p_abcde12345" envC3 = .ok () ∧
    createFlexvolForQtree "p_" false envC3 = .ok "p_abcde12345" :=
  ⟨rfl, rfl, rfl⟩

theorem resizeQuotas_issues (outcome : String → ResizeOutcome)
    (m : List (String × Bool)) (F : String) (h : (F, true) ∈ m) :
    F ∈ (resizeQuotas outcome m).2 := by
  induction m with
  | nil => cases h
  | cons entry rest ih =>
    obtain ⟨g, b⟩ := entry
    rcases hr : resizeQuotas outcome rest with ⟨keptRest, rpcs⟩
    cases h with
    | head =>
      simp only [resizeQuotas, hr]
      cases houtcome : outcome F with
      | transportError e => simp
      | zapiError c => by_cases hcode : c = EVOLUMEDOESNOTEXIST <;> simp [hcode]
      | passed => simp
    | tail b2 h2 =>
      have hF : F ∈ rpcs := by
        have := ih h2
        rw [hr] at this
        exact this
      simp only [resizeQuotas, hr]
      cases b with
      | false => simp [hF]
      | true =>
        cases houtcome : outcome g with
        | transportError e => simp [hF]
        | zapiError c =>
          by_cases hcode : c = EVOLUMEDOESNOTEXIST <;>
            simp [hcode, hF]
        | passed => simp [hF]

theorem resizeQuotas_removes (outcome : String → ResizeOutcome)
    (m : List (String × Bool)) (F : String)
    (hout : outcome F = .passed ∨ outcome F = .zapiError EVOLUMEDOESNOTEXIST) :
    (F, true) ∉ (resizeQuotas outcome m).1 := by
  induction m with
  | nil => simp [resizeQuotas]
  | cons entry rest ih =>
    obtain ⟨g, b⟩ := entry
    rcases hr : resizeQuotas outcome rest with ⟨keptRest, rpcs⟩
    have ihK : (F, true) ∉ keptRest := by
      rw [hr] at ih
      exact ih
    simp only [resizeQuotas, hr]
    by_cases hg : g = F
    · subst hg
      cases b with
      | false => simp [ihK]
      | true =>
        rcases hout with hp | hz
        · simp [hp, ihK]
        · simp [hz, ihK]
    · cases b with
      | false =>
        simp only [if_neg Bool.false_ne_true]
        intro hmem
        rcases List.mem_cons.mp hmem with heq | hmem2
        · exact hg (congrArg Prod.fst heq).symm
        · exact ihK hmem2
      | true =>
        cases houtcome : outcome g with
        | transportError e =>
          simp only [if_pos rfl]
          intro hmem
          rcases List.mem_cons.mp hmem with heq | hmem2
          · exact hg (congrArg Prod.fst heq).symm
          · exact ihK hmem2
        | zapiError c =>
          by_cases hcode : c = EVOLUMEDOESNOTEXIST
          · simp [hcode, ihK]
          · simp only [if_pos rfl, if_neg hcode]
            intro hmem
            rcases List.mem_cons.mp hmem with heq | hmem2
            · exact hg (congrArg Prod.fst heq).symm
            · exact ihK hmem2
        | passed => simp [ihK]

theorem resizeQuotas_keeps (outcome : String → ResizeOutcome)
    (m : List (String × Bool)) (F : String)
    (hp : outcome F ≠ .passed)
    (hz : outcome F ≠ .zapiError EVOLUMEDOESNOTEXIST)
    (h : (F, true) ∈ m) :
    (F, true) ∈ (resizeQuotas outcome m).1 := by
  induction m with
  | nil => cases h
  | cons entry rest ih =>
    obtain ⟨g, b⟩ := entry
    rcases hr : resizeQuotas outcome rest with ⟨keptRest, rpcs⟩
    cases h with
    | head =>
      simp only [resizeQuotas, hr]
      cases houtcome : outcome F with
      | transportError e => simp
      | zapiError c =>
        by_cases hcode : c = EVOLUMEDOESNOTEXIST
        · exact absurd (hcode ▸ houtcome) hz
        · simp [hcode]
      | passed => exact absurd houtcome hp
    | tail b2 h2 =>
      have hF : (F, true) ∈ keptRest := by
        have := ih h2
        rw [hr] at this
        exact this
      simp only [resizeQuotas, hr]
      cases b with
      | false => simp [hF]
      | true =>
        cases houtcome : outcome g with
        | transportError e => simp [hF]
        | zapiError c =>
          by_cases hcode : c = EVOLUMEDOESNOTEXIST <;> simp [hcode, hF]
        | passed => simp [hF]

/-- C7: for every Flexvol `F` flagged in the quota resize map, one sweep of
`resizeQuotas` issues a `QuotaResize(F)` RPC; the entry is removed exactly
when the call passed or the appliance reported `EVOLUMEDOESNOTEXIST`, and it
is kept for retry on any other outcome (transport error or other ZAPI error).
The sweep itself surfaces no error: its Go counterpart returns nothing and
the model's type carries no error component. -/
theorem resizeQuotas_spec (outcome : String → ResizeOutcome)
    (m : List (String × Bool)) (F : String) (h : (F, true) ∈ m) :
    F ∈ (resizeQuotas outcome m).2 ∧
    ((outcome F = .passed ∨ outcome F = .zapiError EVOLUMEDOESNOTEXIST) →
      (F, true) ∉ (resizeQuotas outcome m).1) ∧
    ((outcome F ≠ .passed ∧ outcome F ≠ .zapiError EVOLUMEDOESNOTEXIST) →
      (F, true) ∈ (resizeQuotas outcome m).1) :=
  ⟨resizeQuotas_issues outcome m F h,
   fun hout => resizeQuotas_removes outcome m F hout,
   fun hkeep => resizeQuotas_keeps outcome m F hkeep.1 hkeep.2 h⟩

theorem resizeQuotas_spec_witness :
    "fv" ∈ (resizeQuotas resizePassedW [("fv", true)]).2 ∧
    ("fv", true) ∉ (resizeQuotas resizePassedW [("fv", true)]).1 := by
  have h := resizeQuotas_spec resizePassedW [("fv", true)] "fv" (List.Mem.head _)
  exact ⟨h.1, h.2.1 (Or.inl rfl)⟩

/-- C8 counterexample: with the observed quota status `resizing` — which is
neither `on` nor `corrupt` — `enableQuotas` issues no `QuotaOn` RPC at all
(source line 820 fires only when the status equals `off`), refuting the
claimed symmetry with `disableQuotas`. -/
theorem enableQuotas_no_rpc_on_resizing :
    enableQuotas "fv" true [.ok "resizing", .ok "on"] (.ok ()) =
      (some (.ok ()), []) ∧
    ("resizing" ≠ "on" ∧ "resizing" ≠ "corrupt" ∧ "resizing" ≠ "off") :=
  ⟨rfl, by decide⟩

/-- C8 (amended): `enableQuotas` issues a `QuotaOn` RPC exactly when the
observed status equals `off` — unlike `disableQuotas`, which issues
`QuotaOff` whenever the status is not `off` — and when waiting is requested
the operation polls one status observation per 1-second interval until the
status is `on`, failing with an error naming the Flexvol when `corrupt` is
observed. -/
theorem enableQuotas_amended (fv : String) (wait : Bool) (st : String)
    (rest : List (Except String String)) (rpcRes : Except String Unit)
    (hc : st ≠ "corrupt") :
    (enableQuotas fv wait (.ok st :: rest) rpcRes).2 =
      (if st = "off" then ["QuotaOn"] else []) ∧
    (disableQuotas fv wait (.ok st :: rest) rpcRes).2 =
      (if st = "off" then [] else ["QuotaOff"]) ∧
    enableQuotasLoop fv "on" rest = some (.ok ()) ∧
    (st ≠ "on" → enableQuotasLoop fv st (.ok "corrupt" :: rest) =
      some (.error ("error enabling quotas: quotas are corrupt on flexvol " ++ fv))) ∧
    (∀ s2, st ≠ "on" → s2 ≠ "corrupt" →
      enableQuotasLoop fv st (.ok s2 :: rest) = enableQuotasLoop fv s2 rest) := by
  refine ⟨?_, ?_, ?_, ?_, ?_⟩
  · cases rpcRes <;> cases wait <;> by_cases ho : st = "off" <;>
      simp [enableQuotas, hc, ho]
  · cases rpcRes <;> cases wait <;> by_cases ho : st = "off" <;>
      simp [disableQuotas, hc, ho]
  · unfold enableQuotasLoop
    simp
  · intro hon
    unfold enableQuotasLoop
    simp [hon]
  · intro s2 hon hs2
    rw [enableQuotasLoop.eq_def]
    simp [hon, hs2]

theorem enableQuotas_amended_witness :
    (enableQuotas "fv" true [Except.ok "off"] (Except.ok ())).2 = ["QuotaOn"] := by
  have h := enableQuotas_amended "fv" true "off" [] (.ok ()) (by decide)
  simpa using h.1

/-- C9: the result of `Detach` is exactly the result of the unmount
collaborator `UnmountVolume`, for every outcome of the qtree lookup —
including a transport error of the `QtreeExists` RPC itself, which is only
logged. -/
theorem detach_returns_unmount_result
    (qtreeExistsRes : Except String (Bool × String))
    (unmountRes : Except String Unit) :
    (Detach qtreeExistsRes unmountRes).2 = unmountRes := by
  cases qtreeExistsRes with
  | error e => rfl
  | ok p => obtain ⟨found, fv⟩ := p; rfl

/-- C10 counterexample: the maximal int64 disk limit `9223372036854775807`
parses successfully, but `size *= 1024` wraps in Go's signed 64-bit
arithmetic, so the reported Size is `-1024` — not the parsed disk limit
multiplied by 1024. -/
theorem getVolumeExternal_size_overflow :
    (getVolumeExternal "p" "pvol" "9223372036854775807").size = "-1024" ∧
    goParseInt64 "9223372036854775807" = some 9223372036854775807 ∧
    int64Wrap ((9223372036854775807 : Int) * 1024) ≠
      (9223372036854775807 : Int) * 1024 ∧
    toString ((9223372036854775807 : Int) * 1024) ≠ "-1024" := by
  refine ⟨rfl, rfl, by decide, by decide⟩

/-- C10 (amended): the reported Size is `0` whenever the disk limit does not
parse as a decimal int64 — in particular for the unlimited value `-` — and
otherwise equals the parsed disk limit multiplied by 1024 under Go's wrapping
signed 64-bit multiplication, which agrees with the plain product whenever
that product fits in int64. -/
theorem getVolumeExternal_size_amended (storagePrefixStr qtreeName diskLimit : String) :
    (getVolumeExternal storagePrefixStr qtreeName diskLimit).size =
      (match goParseInt64 diskLimit with
       | none => "0"
       | some n => toString (int64Wrap (n * 1024))) ∧
    goParseInt64 "-" = none ∧
    (getVolumeExternal storagePrefixStr qtreeName "-").size = "0" ∧
    (∀ n : Int, -(2 ^ 63) ≤ n * 1024 → n * 1024 < 2 ^ 63 →
      int64Wrap (n * 1024) = n * 1024) := by
  refine ⟨?_, rfl, rfl, ?_⟩
  · cases hp : goParseInt64 diskLimit with
    | none =>
      simp only [getVolumeExternal, hp]
      decide
    | some n => simp [getVolumeExternal, hp]
  · intro n h1 h2
    unfold int64Wrap
    have hmod : (n * 1024 + 2 ^ 63) % 2 ^ 64 = n * 1024 + 2 ^ 63 :=
      Int.emod_eq_of_lt (by omega) (by omega)
    omega

theorem getVolumeExternal_size_amended_witness :
    int64Wrap ((2048 : Int) * 1024) = (2048 : Int) * 1024 :=
  (getVolumeExternal_size_amended "p" "pvol" "2048").2.2.2 2048 (by decide) (by decide)

end Ontap
